import Mathlib

/-!
Shallow embedding of the RES 6502 emulator core (src/cpu.rs, src/bus.rs,
src/rom.rs).  Machine integers are modelled as Nat with explicit wrapping:
u8 values wrap modulo 256 and u16 values wrap modulo 65536, matching the
wrapping semantics of the Rust arithmetic used throughout the source.
The CPU talks to memory only through the Mem trait; at the CPU level memory
is modelled as a function from 16-bit addresses to bytes, with mem_read and
mem_write mirroring the protocol wrappers in cpu.rs.  The RomBus of bus.rs,
whose latched data bus is observable, is modelled separately with its full
control-signal protocol; operations that panic in Rust return none.
-/

namespace RES

/-- Wrap a natural number to an unsigned 8-bit value. -/
def u8 (n : Nat) : Nat := n % 256

/-- Wrap a natural number to an unsigned 16-bit value. -/
def u16 (n : Nat) : Nat := n % 65536

/-- The addressing modes of cpu.rs (enum AddressingMode). -/
inductive AddressingMode
  | Immediate
  | ZeroPage
  | ZeroPageX
  | ZeroPageY
  | Absolute
  | AbsoluteX
  | AbsoluteY
  | Indirect
  | IndexedIndirectX
  | IndexedIndirectY
  | IndirectIndexedX
  | IndirectIndexedY
deriving DecidableEq

/-- Status flag bit masks, from enum Flag in cpu.rs. -/
def FlagN : Nat := 0x80

/-- Overflow flag mask. -/
def FlagV : Nat := 0x40

/-- Break flag mask. -/
def FlagB : Nat := 0x10

/-- Decimal flag mask. -/
def FlagD : Nat := 0x08

/-- Interrupt-disable flag mask. -/
def FlagI : Nat := 0x04

/-- Zero flag mask. -/
def FlagZ : Nat := 0x02

/-- Carry flag mask. -/
def FlagC : Nat := 0x01

/-- The architectural state of struct CPU in cpu.rs.  The mem field models
the byte store reachable through the Mem trait: mem_read returns the byte a
well-behaved bus holds at an address and mem_write updates it. -/
structure CpuState where
  register_a : Nat
  register_x : Nat
  register_y : Nat
  stack_pointer : Nat
  status : Nat
  program_counter : Nat
  mem : Nat → Nat

/-- CPU.mem_read: the bus returns the u8 at the given u16 address. -/
def mem_read (s : CpuState) (addr : Nat) : Nat := u8 (s.mem (u16 addr))

/-- CPU.mem_write: the bus stores the u8 value at the given u16 address. -/
def mem_write (s : CpuState) (addr val : Nat) : CpuState :=
  { s with mem := fun a => if a = u16 addr then u8 val else s.mem a }

/-- CPU.mem_read_u16: little-endian 16-bit read, lo at addr, hi at addr+1.
The address increment wraps at 2^16 as the u16 addition in the source does. -/
def mem_read_u16 (s : CpuState) (addr : Nat) : Nat :=
  let lo := mem_read s addr
  let hi := mem_read s (addr + 1)
  (hi <<< 8) ||| lo

/-- CPU.set_flag: set or clear the masked bit in the status register. -/
def set_flag (s : CpuState) (code : Nat) (val : Bool) : CpuState :=
  if val then { s with status := s.status ||| code }
  else { s with status := s.status &&& (255 ^^^ code) }

/-- CPU.get_flag: test the masked bit of the status register. -/
def get_flag (s : CpuState) (code : Nat) : Bool := (s.status &&& code) != 0

/-- CPU.fetch: read the byte at the program counter and post-increment it. -/
def fetch (s : CpuState) : Nat × CpuState :=
  (mem_read s s.program_counter,
   { s with program_counter := u16 (s.program_counter + 1) })

/-- CPU.stack_push: write at 0x0100 + S then decrement S (wrapping u8). -/
def stack_push (s : CpuState) (val : Nat) : CpuState :=
  let s1 := mem_write s (0x100 + u8 s.stack_pointer) val
  { s1 with stack_pointer := u8 (s1.stack_pointer + 255) }

/-- CPU.stack_pop: increment S (wrapping u8) then read at 0x0100 + S. -/
def stack_pop (s : CpuState) : Nat × CpuState :=
  let s1 := { s with stack_pointer := u8 (s.stack_pointer + 1) }
  (mem_read s1 (0x100 + u8 s1.stack_pointer), s1)

/-- CPU.get_target_address, translated arm by arm from cpu.rs.  Note that
the ZeroPageX and ZeroPageY arms add the index register to the zero-extended
operand as u16 values with no wrap at 256, exactly as the source does. -/
def get_target_address (mode : AddressingMode) (s : CpuState) :
    Nat × CpuState :=
  match mode with
  | .Immediate =>
      let s1 := { s with program_counter := u16 (s.program_counter + 1) }
      (u16 (s1.program_counter + 65535), s1)
  | .ZeroPage => fetch s
  | .ZeroPageX =>
      let (v, s1) := fetch s
      (v + u8 s1.register_x, s1)
  | .ZeroPageY =>
      let (v, s1) := fetch s
      (v + u8 s1.register_y, s1)
  | .Absolute =>
      let (lo, s1) := fetch s
      let (hi, s2) := fetch s1
      ((hi <<< 8) ||| lo, s2)
  | .AbsoluteX =>
      let (lo, s1) := fetch s
      let (hi, s2) := fetch s1
      (u16 (u8 s2.register_x + ((hi <<< 8) ||| lo)), s2)
  | .AbsoluteY =>
      let (lo, s1) := fetch s
      let (hi, s2) := fetch s1
      (u16 (u8 s2.register_y + ((hi <<< 8) ||| lo)), s2)
  | .Indirect =>
      let (v, s1) := fetch s
      (mem_read_u16 s1 v, s1)
  | .IndexedIndirectX =>
      let (v, s1) := fetch s
      (mem_read_u16 s1 (v + u8 s1.register_x), s1)
  | .IndexedIndirectY =>
      let (v, s1) := fetch s
      (mem_read_u16 s1 (v + u8 s1.register_y), s1)
  | .IndirectIndexedX =>
      let (v, s1) := fetch s
      (u16 (mem_read_u16 s1 v + u8 s1.register_x), s1)
  | .IndirectIndexedY =>
      let (v, s1) := fetch s
      (u16 (mem_read_u16 s1 v + u8 s1.register_y), s1)

/-- CPU.set_zero. -/
def set_zero (s : CpuState) (result : Nat) : CpuState :=
  set_flag s FlagZ (result == 0)

/-- CPU.set_negative. -/
def set_negative (s : CpuState) (result : Nat) : CpuState :=
  set_flag s FlagN ((0x80 &&& result) != 0)

/-- CPU.set_carry, as written in cpu.rs: carry is set when some operand has
bit 7 set while the result does not. -/
def set_carry (s : CpuState) (a b result : Nat) : CpuState :=
  set_flag s FlagC (((a ||| b) &&& 0x80 != 0) && (result &&& 0x80 == 0))

/-- CPU.set_overflow, as written in cpu.rs. -/
def set_overflow (s : CpuState) (a b result : Nat) : CpuState :=
  set_flag s FlagV
    ((a &&& 0x80 == b &&& 0x80) && (a &&& 0x80 != result &&& 0x80))

/-- CPU.adc: add memory operand and carry into the accumulator, then derive
Z, N, C, V via the helpers, exactly in source order. -/
def adc (mode : AddressingMode) (s : CpuState) : CpuState :=
  let old := u8 s.register_a
  let (addr, s1) := get_target_address mode s
  let other := mem_read s1 addr
  let s2 := { s1 with register_a := u8 (u8 s1.register_a + other) }
  let s3 := { s2 with
    register_a := u8 (s2.register_a + (if get_flag s2 FlagC then 1 else 0)) }
  let s4 := set_zero s3 s3.register_a
  let s5 := set_negative s4 s4.register_a
  let s6 := set_carry s5 old other s5.register_a
  set_overflow s6 old other s6.register_a

/-- The cp! macro body shared by cmp, cpx and cpy in cpu.rs: set C and Z
from the comparison; the source sets no other flag (its comment reads
"need a subtract here..."). -/
def cp_body (reg : Nat) (mode : AddressingMode) (s : CpuState) : CpuState :=
  let (addr, s1) := get_target_address mode s
  let val := mem_read s1 addr
  let s2 := set_flag s1 FlagC (decide (reg ≥ val))
  set_flag s2 FlagZ (decide (reg = val))

/-- CPU.cmp, generated by the cp! macro for register A. -/
def cmp (mode : AddressingMode) (s : CpuState) : CpuState :=
  cp_body (u8 s.register_a) mode s

/-- CPU.cpx, generated by the cp! macro for register X. -/
def cpx (mode : AddressingMode) (s : CpuState) : CpuState :=
  cp_body (u8 s.register_x) mode s

/-- CPU.cpy, generated by the cp! macro for register Y. -/
def cpy (mode : AddressingMode) (s : CpuState) : CpuState :=
  cp_body (u8 s.register_y) mode s

/-- CPU.jump_rel from cpu.rs: fetch the relative operand; if the condition
fails return; otherwise add either the low 7 bits, or the byte with 0xff00
ored in, to the program counter (wrapping u16 addition). -/
def jump_rel (condition : Bool) (s : CpuState) : CpuState :=
  let (rel, s1) := fetch s
  if !condition then s1
  else if rel &&& 0x80 == 0 then
    { s1 with program_counter := u16 (s1.program_counter + (rel &&& 0x7f)) }
  else
    { s1 with program_counter := u16 (s1.program_counter + (rel ||| 0xff00)) }

/-- CPU.eor as written in cpu.rs: the source ors the operand into the
accumulator (register_a |= data) instead of xoring it. -/
def eor (mode : AddressingMode) (s : CpuState) : CpuState :=
  let (addr, s1) := get_target_address mode s
  let data := mem_read s1 addr
  let s2 := { s1 with register_a := u8 s1.register_a ||| data }
  let s3 := set_zero s2 s2.register_a
  set_negative s3 s3.register_a

/-- The eight conditional branch opcodes of the run dispatch loop. -/
inductive BranchOp
  | BCC
  | BCS
  | BEQ
  | BMI
  | BNE
  | BPL
  | BVC
  | BVS
deriving DecidableEq

/-- The opcode byte of each branch instruction in the run match. -/
def branch_opcode : BranchOp → Nat
  | .BCC => 0x90
  | .BCS => 0xb0
  | .BEQ => 0xf0
  | .BMI => 0x30
  | .BNE => 0xd0
  | .BPL => 0x10
  | .BVC => 0x50
  | .BVS => 0x70

/-- The condition each branch arm of run passes to jump_rel, read from the
status register via get_flag. -/
def branch_condition (b : BranchOp) (s : CpuState) : Bool :=
  match b with
  | .BCC => !(get_flag s FlagC)
  | .BCS => get_flag s FlagC
  | .BEQ => get_flag s FlagZ
  | .BMI => get_flag s FlagN
  | .BNE => !(get_flag s FlagZ)
  | .BPL => !(get_flag s FlagN)
  | .BVC => !(get_flag s FlagV)
  | .BVS => get_flag s FlagV

/-- One iteration of CPU.run when the fetched opcode is a branch: fetch the
opcode byte, evaluate the flag condition, call jump_rel. -/
def step_branch (b : BranchOp) (s : CpuState) : CpuState :=
  let s0 := (fetch s).2
  jump_rel (branch_condition b s0) s0

/-- One iteration of CPU.run when the fetched opcode is 0x20 (JSR): resolve
the absolute target, push the high then low byte of the program counter now
past the three instruction bytes, and jump to the target. -/
def step_jsr (s : CpuState) : CpuState :=
  let s0 := (fetch s).2
  let (target_addr, s1) := get_target_address .Absolute s0
  let lsb := s1.program_counter &&& 0xff
  let msb := u8 (s1.program_counter >>> 8)
  let s2 := stack_push s1 msb
  let s3 := stack_push s2 lsb
  { s3 with program_counter := u16 target_addr }

/-- One iteration of CPU.run when the fetched opcode is 0x60 (RTS): pop low
then high byte of the return address and jump to it. -/
def step_rts (s : CpuState) : CpuState :=
  let s0 := (fetch s).2
  let (lsb, s1) := stack_pop s0
  let (msb, s2) := stack_pop s1
  { s2 with program_counter := u16 ((msb <<< 8) + lsb) }

/-- One iteration of CPU.run when the fetched opcode is 0x00 (BRK): push the
high byte of the program counter, then the low byte, then the status byte as
it currently is, load the program counter from the 16-bit value read at
0xffff (the source passes 0xffff, not 0xfffe, to mem_read_u16, so the high
byte comes from address 0x0000 after the u16 wrap), then set the B flag. -/
def step_brk (s : CpuState) : CpuState :=
  let s0 := (fetch s).2
  let lsb := s0.program_counter &&& 0xff
  let msb := u8 (s0.program_counter >>> 8)
  let s1 := stack_push s0 msb
  let s2 := stack_push s1 lsb
  let s3 := stack_push s2 (u8 s2.status)
  let s4 := { s3 with program_counter := mem_read_u16 s3 0xffff }
  set_flag s4 FlagB true

/-- The 16-bit unsigned representation of the operand byte interpreted as an
8-bit two's-complement value, as the specification words it: bytes below
0x80 denote themselves, bytes from 0x80 denote their value minus 256, which
as an unsigned 16-bit quantity is the byte plus 0xff00. -/
def sign_extend8 (o : Nat) : Nat := if o < 0x80 then o else o + 0xff00

/-- The NROM-256 mapper of rom.rs: 0x8000 bytes of PRG ROM and 0x2000 bytes
of CHR ROM, modelled as byte-valued functions on the valid index ranges. -/
structure Nrom256 where
  prg_rom : Nat → Nat
  chr_rom : Nat → Nat

/-- Nrom256.prg_read from rom.rs: index prg_rom directly at the raw 16-bit
address.  Rust array indexing bounds-checks against the array length 0x8000
and panics when the index is out of range; the panic is modelled as none. -/
def Nrom256.prg_read (rom : Nrom256) (address : Nat) : Option Nat :=
  if address < 0x8000 then some (u8 (rom.prg_rom address)) else none

/-- The RomBus of bus.rs: latched address, data and control buses, 0x0800
bytes of work RAM (a byte-valued function on indices 0..0x07ff) and the
installed mapper, represented by its prg_read function (none for a panic,
as EmptyRom always panics). -/
structure RomBus where
  address_bus : Nat
  data_bus : Nat
  control_bus : Nat
  data : Nat → Nat
  rom : Nat → Option Nat

/-- ControlSignal::MemEnable. -/
def MemEnable : Nat := 0x01

/-- ControlSignal::AccessMode. -/
def AccessMode : Nat := 0x02

/-- RomBus::get_control_signal. -/
def RomBus.get_control_signal (b : RomBus) (control : Nat) : Bool :=
  (b.control_bus &&& control) != 0

/-- RomBus::update, translated range by range from bus.rs.  Arms that
panic (the todo arm for 0x4020..0x5fff and writes into ROM space) and a
panicking mapper read are modelled as none; the stub arms for the PPU, APU
and cartridge-RAM ranges leave the bus unchanged. -/
def RomBus.update (b : RomBus) : Option RomBus :=
  if !(b.get_control_signal MemEnable) then some b
  else if b.get_control_signal AccessMode then
    if b.address_bus ≤ 0x1fff then
      some { b with data_bus := u8 (b.data (b.address_bus % 0x800)) }
    else if b.address_bus ≤ 0x3fff then some b
    else if b.address_bus ≤ 0x4017 then some b
    else if b.address_bus ≤ 0x401f then some b
    else if b.address_bus < 0x6000 then none
    else if b.address_bus ≤ 0x7fff then some b
    else
      match b.rom (u16 b.address_bus) with
      | some v => some { b with data_bus := u8 v }
      | none => none
  else
    if b.address_bus ≤ 0x1fff then
      some { b with data := fun a =>
        if a = b.address_bus % 0x800 then u8 b.data_bus else b.data a }
    else if b.address_bus ≤ 0x3fff then some b
    else if b.address_bus ≤ 0x4017 then some b
    else if b.address_bus ≤ 0x401f then some b
    else if b.address_bus < 0x6000 then none
    else if b.address_bus ≤ 0x7fff then some b
    else none

/-- RomBus::set_address_bus. -/
def RomBus.set_address_bus (b : RomBus) (addr : Nat) : RomBus :=
  { b with address_bus := u16 addr }

/-- RomBus::set_data_bus. -/
def RomBus.set_data_bus (b : RomBus) (val : Nat) : RomBus :=
  { b with data_bus := u8 val }

/-- RomBus::get_data_bus. -/
def RomBus.get_data_bus (b : RomBus) : Nat := b.data_bus

/-- RomBus::set_control_signal: set or clear the control bit, then update. -/
def RomBus.set_control_signal (b : RomBus) (control : Nat) (val : Bool) :
    Option RomBus :=
  let b1 :=
    if val then { b with control_bus := b.control_bus ||| control }
    else { b with control_bus := b.control_bus &&& (255 ^^^ control) }
  b1.update

/-- RomBus::new, via Mem::new in bus.rs: all buses zero, RAM zeroed, and an
EmptyRom whose prg_read always panics. -/
def RomBus.new : RomBus :=
  { address_bus := 0, data_bus := 0, control_bus := 0,
    data := fun _ => 0, rom := fun _ => none }

/-- The CPU.mem_read protocol of cpu.rs driven against a RomBus: disable
memory, latch the address, select read mode, enable memory, sample the data
bus, disable memory again.  Returns the sampled byte and the final bus. -/
def RomBus.mem_read (b : RomBus) (addr : Nat) : Option (Nat × RomBus) := do
  let b ← b.set_control_signal MemEnable false
  let b := b.set_address_bus addr
  let b ← b.set_control_signal AccessMode true
  let b ← b.set_control_signal MemEnable true
  let val := b.get_data_bus
  let b ← b.set_control_signal MemEnable false
  pure (val, b)

/-- The CPU.mem_write protocol of cpu.rs driven against a RomBus: disable
memory, latch the address, select write mode, latch the data, enable memory,
disable memory again. -/
def RomBus.mem_write (b : RomBus) (addr val : Nat) : Option RomBus := do
  let b ← b.set_control_signal MemEnable false
  let b := b.set_address_bus addr
  let b ← b.set_control_signal AccessMode false
  let b := b.set_data_bus val
  let b ← b.set_control_signal MemEnable true
  b.set_control_signal MemEnable false

/-- A bus address lies in one of the stub device regions of bus.rs: the PPU
register window, the APU and IO registers, the disabled test region, or the
cartridge RAM window. -/
def stub_region (addr : Nat) : Prop :=
  (0x2000 ≤ addr ∧ addr ≤ 0x3fff) ∨ (0x4000 ≤ addr ∧ addr ≤ 0x4017) ∨
  (0x4018 ≤ addr ∧ addr ≤ 0x401f) ∨ (0x6000 ≤ addr ∧ addr ≤ 0x7fff)

instance (addr : Nat) : Decidable (stub_region addr) := by
  unfold stub_region; infer_instance

theorem and255_eq_mod (n : Nat) : n &&& 255 = n % 256 := by
  calc n &&& 255 = n &&& (2 ^ 8 - 1) := by norm_num
    _ = n % 2 ^ 8 := Nat.and_pow_two_sub_one_eq_mod n 8
    _ = n % 256 := by norm_num

theorem shiftRight8_eq_div (n : Nat) : n >>> 8 = n / 256 := by
  rw [Nat.shiftRight_eq_div_pow]

theorem hi_shift_or_lo (hi lo : Nat) (h : lo < 256) :
    (hi <<< 8) ||| lo = hi * 256 + lo := by
  have e : (2 : Nat) ^ 8 = 256 := by norm_num
  have h2 : lo < 2 ^ 8 := by rw [e]; exact h
  have := (Nat.mul_add_lt_is_or h2 hi).symm
  rw [Nat.shiftLeft_eq]
  calc hi * 2 ^ 8 ||| lo = 2 ^ 8 * hi ||| lo := by rw [Nat.mul_comm]
    _ = 2 ^ 8 * hi + lo := this
    _ = hi * 256 + lo := by ring

set_option maxRecDepth 40000 in
theorem u8_byte_cases (o : Nat) (h : o < 256) :
    (o &&& 0x80 = 0 → o &&& 0x7f = o ∧ o < 0x80) ∧
    (o &&& 0x80 ≠ 0 → o ||| 0xff00 = o + 0xff00 ∧ ¬ o < 0x80) := by
  revert o
  decide

theorem branch_condition_status_only (b : BranchOp) (s : CpuState) (p : Nat) :
    branch_condition b { s with program_counter := p } = branch_condition b s := by
  cases b <;> rfl

theorem jump_rel_pc (c : Bool) (s : CpuState) :
    (jump_rel c s).program_counter =
      if c then u16 (u16 (s.program_counter + 1) +
        sign_extend8 (mem_read s s.program_counter))
      else u16 (s.program_counter + 1) := by
  have hrel : mem_read s s.program_counter < 256 := by
    unfold mem_read u8; omega
  cases c with
  | false => simp [jump_rel, fetch]
  | true =>
      by_cases h8 : mem_read s s.program_counter &&& 128 = 0
      · have h1 := (u8_byte_cases (mem_read s s.program_counter) hrel).1 h8
        simp [jump_rel, fetch, h8, sign_extend8, h1.1, h1.2]
      · have h2 := (u8_byte_cases (mem_read s s.program_counter) hrel).2 h8
        simp [jump_rel, fetch, h8, sign_extend8, h2.1, h2.2]

/-- C2: for every branch instruction with the branch opcode at the program
counter, one iteration of the run loop leaves the program counter at
(P + sign_extend(o)) mod 2^16 when the flag condition holds, where P is the
address just past the operand byte and o the operand byte, and at P when
the condition fails. -/
theorem branch_rel_pc (b : BranchOp) (s : CpuState)
    (_hop : mem_read s s.program_counter = branch_opcode b) :
    (step_branch b s).program_counter =
      if branch_condition b s then
        u16 (u16 (s.program_counter + 2) +
          sign_extend8 (mem_read s (s.program_counter + 1)))
      else u16 (s.program_counter + 2) := by
  unfold step_branch fetch
  rw [jump_rel_pc]
  rw [branch_condition_status_only]
  have hmem : mem_read { s with program_counter := u16 (s.program_counter + 1) }
      (u16 (s.program_counter + 1)) = mem_read s (s.program_counter + 1) := by
    unfold mem_read u16
    simp [Nat.mod_mod]
  simp only [hmem]
  have h2 : u16 (u16 (s.program_counter + 1) + 1) = u16 (s.program_counter + 2) := by
    unfold u16; omega
  simp only [h2]

/-- Witness for C2: a taken BCC at address 0 with operand 5 lands at 7. -/
theorem branch_rel_pc_witness :
    (step_branch .BCC
        ⟨0, 0, 0, 0xff, 0x20, 0, fun a => if a = 0 then 0x90 else 5⟩
      ).program_counter = 7 := by
  rw [branch_rel_pc .BCC
    ⟨0, 0, 0, 0xff, 0x20, 0, fun a => if a = 0 then 0x90 else 5⟩ (by decide)]
  decide

theorem step_jsr_sp (s : CpuState) :
    (step_jsr s).stack_pointer = (s.stack_pointer + 254) % 256 := by
  simp [step_jsr, get_target_address, fetch, stack_push, mem_write, u8, u16]
  omega

theorem step_jsr_mem_lsb (s : CpuState) :
    (step_jsr s).mem (0x100 + (s.stack_pointer + 255) % 256) =
      (s.program_counter + 3) % 65536 % 256 := by
  simp [step_jsr, get_target_address, fetch, stack_push, mem_write, u8, u16,
    and255_eq_mod]
  omega

theorem step_jsr_mem_msb (s : CpuState) :
    (step_jsr s).mem (0x100 + s.stack_pointer % 256) =
      (s.program_counter + 3) % 65536 / 256 % 256 := by
  have e1 : (256 + (s.stack_pointer + 255) % 256) % 65536 =
      256 + (s.stack_pointer + 255) % 256 := Nat.mod_eq_of_lt (by omega)
  have e2 : (256 + s.stack_pointer % 256) % 65536 =
      256 + s.stack_pointer % 256 := Nat.mod_eq_of_lt (by omega)
  have ne1 : ¬ (256 + s.stack_pointer % 256 =
      256 + (s.stack_pointer + 255) % 256) := by
    omega
  simp [step_jsr, get_target_address, fetch, stack_push, mem_write, u8, u16,
    and255_eq_mod, shiftRight8_eq_div, e1, e2, ne1]

theorem step_rts_pc (t : CpuState) :
    (step_rts t).program_counter =
      u16 ((mem_read t (0x100 + (t.stack_pointer + 2) % 256) <<< 8) +
        mem_read t (0x100 + (t.stack_pointer + 1) % 256)) := by
  simp [step_rts, stack_pop, fetch, mem_read, u8, u16, Nat.mod_mod]

/-- C3: executing a JSR (opcode 0x20 at the program counter) and then an
RTS from any later state whose stack pointer and whose stack bytes at the
two pushed slots are those the JSR left behind (no intervening net stack
activity) leaves the program counter at the address of the instruction
immediately following the 3-byte JSR. -/
theorem jsr_rts_roundtrip (s t : CpuState)
    (_hop : mem_read s s.program_counter = 0x20)
    (hsp : t.stack_pointer = (step_jsr s).stack_pointer)
    (hm1 : t.mem (0x100 + s.stack_pointer % 256) =
      (step_jsr s).mem (0x100 + s.stack_pointer % 256))
    (hm2 : t.mem (0x100 + (s.stack_pointer + 255) % 256) =
      (step_jsr s).mem (0x100 + (s.stack_pointer + 255) % 256))
    (_hrts : mem_read t t.program_counter = 0x60) :
    (step_rts t).program_counter = u16 (s.program_counter + 3) := by
  rw [step_rts_pc]
  have e1 : (t.stack_pointer + 1) % 256 = (s.stack_pointer + 255) % 256 := by
    rw [hsp, step_jsr_sp]; omega
  have e2 : (t.stack_pointer + 2) % 256 = s.stack_pointer % 256 := by
    rw [hsp, step_jsr_sp]; omega
  rw [e1, e2]
  unfold mem_read
  have u1 : u16 (0x100 + s.stack_pointer % 256) =
      0x100 + s.stack_pointer % 256 := by
    unfold u16; omega
  have u2 : u16 (0x100 + (s.stack_pointer + 255) % 256) =
      0x100 + (s.stack_pointer + 255) % 256 := by
    unfold u16; omega
  rw [u1, u2, hm1, hm2, step_jsr_mem_lsb, step_jsr_mem_msb]
  unfold u8 u16
  rw [Nat.shiftLeft_eq]
  omega

/-- Witness for C3: a JSR at address 0 targeting 0x1234, where an RTS sits,
returns the program counter to 3. -/
theorem jsr_rts_roundtrip_witness :
    (step_rts (step_jsr
      ⟨0, 0, 0, 0xff, 0x20, 0, fun a => if a = 0 then 0x20 else
        if a = 1 then 0x34 else if a = 2 then 0x12 else
        if a = 0x1234 then 0x60 else 0⟩)).program_counter = 3 := by
  rw [jsr_rts_roundtrip
    ⟨0, 0, 0, 0xff, 0x20, 0, fun a => if a = 0 then 0x20 else
      if a = 1 then 0x34 else if a = 2 then 0x12 else
      if a = 0x1234 then 0x60 else 0⟩
    (step_jsr
      ⟨0, 0, 0, 0xff, 0x20, 0, fun a => if a = 0 then 0x20 else
        if a = 1 then 0x34 else if a = 2 then 0x12 else
        if a = 0x1234 then 0x60 else 0⟩)
    (by decide) rfl rfl rfl (by decide)]
  decide

/-- C1: the claim asserts that ADC sets the carry flag if and only if the
full sum a + m + c exceeds 255.  At a = 0xff, m = 0xff, c = 0, immediate
mode, the full sum is 510 > 255, yet the set_carry rule of the source (some
operand has bit 7 while the result does not) leaves the carry flag clear,
because the wrapped result 0xfe still has bit 7 set; the resulting
accumulator value 0xfe does match the claimed (a + m + c) mod 256. -/
theorem adc_carry_divergence :
    255 + 255 + 0 > 255 ∧
    get_flag (adc .Immediate ⟨0xff, 0, 0, 0xff, 0x20, 0, fun _ => 0xff⟩)
      FlagC = false ∧
    (adc .Immediate ⟨0xff, 0, 0, 0xff, 0x20, 0, fun _ => 0xff⟩).register_a
      = (255 + 255 + 0) % 256 :=
  ⟨by decide, by decide, by decide⟩

/-- C4: for every address in the ROM window 0x8000 to 0xffff, the NROM-256
prg_read indexes the length-0x8000 PRG array at the raw address, which is
out of bounds, so the read panics and never returns a byte. -/
theorem nrom256_prg_read_out_of_bounds (rom : Nrom256) (a : Nat)
    (h1 : 0x8000 ≤ a) (h2 : a ≤ 0xffff) : rom.prg_read a = none := by
  unfold Nrom256.prg_read
  rw [if_neg]
  omega

/-- Witness for C4 at the concrete address 0x8000. -/
theorem nrom256_prg_read_out_of_bounds_witness :
    Nrom256.prg_read ⟨fun _ => 0, fun _ => 0⟩ 0x8000 = none :=
  nrom256_prg_read_out_of_bounds ⟨fun _ => 0, fun _ => 0⟩ 0x8000
    (by decide) (by decide)

/-- C5: the claim asserts that CMP sets the negative flag to bit 7 of
(r - m) mod 256.  At r = 0, m = 1, that difference is 0xff, whose bit 7 is
set, yet the cp! macro body never touches the negative flag (its comment
reads "need a subtract here..."), so with N initially clear it stays clear;
the carry and zero flags and the register itself behave as claimed. -/
theorem cmp_negative_divergence :
    ((256 + 0 - 1) % 256) &&& 0x80 ≠ 0 ∧
    get_flag (cmp .Immediate ⟨0, 0, 0, 0xff, 0x20, 0, fun _ => 1⟩)
      FlagN = false ∧
    (cmp .Immediate ⟨0, 0, 0, 0xff, 0x20, 0, fun _ => 1⟩).register_a = 0 :=
  ⟨by decide, by decide, by decide⟩

/-- C6: the claim asserts that EOR leaves the accumulator equal to the
bitwise exclusive-or of a and m.  At a = 1, m = 1 the exclusive-or is 0,
but the source ors the operand into the accumulator, leaving 1. -/
theorem eor_xor_divergence :
    (eor .Immediate ⟨1, 0, 0, 0xff, 0x20, 0, fun _ => 1⟩).register_a = 1 ∧
    1 ^^^ 1 = 0 :=
  ⟨by decide, by decide⟩

/-- C7: the claim asserts that ZeroPageX resolution yields (d + X) mod 256,
staying inside page zero.  At d = 0xff, X = 2 the source computes the u16
sum 0x101, which is neither (d + X) mod 256 = 1 nor inside page zero. -/
theorem zero_page_x_wrap_divergence :
    (get_target_address .ZeroPageX ⟨0, 2, 0, 0xff, 0x20, 0,
        fun _ => 0xff⟩).1 = 0x101 ∧
    (0xff + 2) % 256 = 1 ∧ 0x101 > 0xff :=
  ⟨by decide, by decide, by decide⟩

/-- C10: the claim asserts that BRK pushes the status byte with the B bit
set and loads the program counter from the little-endian vector at
0xfffe and 0xffff.  With status 0, program counter 0x200 after the opcode
fetch would give 0x201, and memory holding 0x34 at 0xfffe and 0x12 at
0xffff: the byte the source pushes for the status (at stack address 0x1fd)
has the B bit clear, because the source sets B only after pushing, and the
new program counter is 0x12, read little-endian from 0xffff and the wrapped
address 0x0000, instead of the 0x1234 stored at the claimed vector. -/
theorem brk_divergence :
    (step_brk ⟨0, 0, 0, 0xff, 0, 0x200,
        fun a => if a = 0xfffe then 0x34 else
          if a = 0xffff then 0x12 else 0⟩).mem 0x1fd &&& FlagB = 0 ∧
    (step_brk ⟨0, 0, 0, 0xff, 0, 0x200,
        fun a => if a = 0xfffe then 0x34 else
          if a = 0xffff then 0x12 else 0⟩).program_counter = 0x12 ∧
    mem_read_u16 ⟨0, 0, 0, 0xff, 0, 0x200,
        fun a => if a = 0xfffe then 0x34 else
          if a = 0xffff then 0x12 else 0⟩ 0xfffe = 0x1234 ∧
    0x12 ≠ 0x1234 :=
  ⟨by decide, by decide, by decide, by decide⟩

theorem and254_mod_two (x : Nat) : (x &&& 254) % 2 = 0 := by
  rw [← Nat.and_one_is_mod, Nat.and_assoc]
  have : (254 &&& 1 : Nat) = 0 := by decide
  simp [this]

theorem or_one_mod_two (x : Nat) : (x ||| 1) % 2 = 1 := by
  rw [← Nat.and_one_is_mod, Nat.and_distrib_right, Nat.and_one_is_mod]
  rcases Nat.mod_two_eq_zero_or_one x with h | h <;> rw [h] <;> decide

theorem or_two_mod_two (x : Nat) : (x ||| 2) % 2 = x % 2 := by
  rw [← Nat.and_one_is_mod, Nat.and_distrib_right, Nat.and_one_is_mod]
  have : (2 &&& 1 : Nat) = 0 := by decide
  simp [this]

theorem and_two_cases (x : Nat) : x &&& 2 = 0 ∨ x &&& 2 = 2 := by
  have h1 : x &&& 2 ≤ 2 := Nat.and_le_right
  have h2 : (x &&& 2) % 2 = 0 := by
    rw [← Nat.and_one_is_mod, Nat.and_assoc]
    have : (2 &&& 1 : Nat) = 0 := by decide
    simp [this]
  omega

theorem and_or_two_ne_zero (x : Nat) : ¬ (x &&& 2 ||| 2 = 0) := by
  rcases and_two_cases x with h | h <;> rw [h] <;> decide

theorem mem_write_ram (b : RomBus) (a v : Nat) (h : a ≤ 0x1fff) :
    b.mem_write a v = some (RomBus.mk a (u8 v)
      (((b.control_bus &&& 254 &&& 253) ||| 1) &&& 254)
      (fun i => if i = a % 0x800 then u8 v else b.data i) b.rom) := by
  have hu : a % 65536 = a := Nat.mod_eq_of_lt (by omega)
  have l1 : (254 &&& (253 &&& 2) : Nat) = 0 := by decide
  have l2 : (254 &&& (253 &&& 254) : Nat) = 252 := by decide
  have l3 : (254 &&& 253 : Nat) = 252 := by decide
  have l4 : (1 &&& 254 : Nat) = 0 := by decide
  have l5 : (252 &&& 254 : Nat) = 252 := by decide
  have l6 : (252 &&& 2 : Nat) = 0 := by decide
  simp [RomBus.mem_write, RomBus.set_control_signal, RomBus.update,
    RomBus.set_address_bus, RomBus.set_data_bus, RomBus.get_control_signal,
    RomBus.get_data_bus, MemEnable, AccessMode, and254_mod_two, or_one_mod_two,
    Nat.and_distrib_right, Nat.and_assoc, u8, u16, hu, h, Nat.mod_mod,
    l1, l2, l3, l4, l5, l6]

theorem mem_read_ram_value (b : RomBus) (a : Nat) (h : a ≤ 0x1fff) :
    (b.mem_read a).map Prod.fst = some (u8 (b.data (a % 0x800))) := by
  have hu : a % 65536 = a := Nat.mod_eq_of_lt (by omega)
  have l1 : (254 &&& 2 : Nat) = 2 := by decide
  have l2 : (2 &&& 2 : Nat) = 2 := by decide
  have l3 : (1 &&& 2 : Nat) = 0 := by decide
  simp [RomBus.mem_read, RomBus.set_control_signal, RomBus.update,
    RomBus.set_address_bus, RomBus.set_data_bus, RomBus.get_control_signal,
    RomBus.get_data_bus, MemEnable, AccessMode, and254_mod_two, or_one_mod_two,
    or_two_mod_two, and_or_two_ne_zero,
    Nat.and_distrib_right, Nat.and_assoc, u8, u16, hu, h, Nat.mod_mod,
    l1, l2, l3]

/-- C8: for every starting bus, writing a byte v to a RAM address a below
0x0800 through the CPU bus protocol and then reading a + 0x0800 k for any
mirror multiple k up to 3 completes and returns v. -/
theorem ram_mirror_read_after_write (b : RomBus) (v a k : Nat)
    (ha : a ≤ 0x7ff) (hk : k ≤ 3) (hv : v < 256) :
    ((b.mem_write a v).bind fun b2 => b2.mem_read (a + 0x800 * k)).map
      Prod.fst = some v := by
  rw [mem_write_ram b a v (by omega)]
  rw [Option.some_bind]
  rw [mem_read_ram_value _ _ (by omega)]
  have e1 : (a + 2048 * k) % 2048 = a := by omega
  have e2 : a % 2048 = a := by omega
  simp [e1, e2, u8, Nat.mod_eq_of_lt hv]

/-- Witness for C8: write 5 at address 0, read the mirror 0x1800, get 5. -/
theorem ram_mirror_read_after_write_witness :
    ((RomBus.new.mem_write 0 5).bind fun b2 =>
      b2.mem_read (0 + 0x800 * 3)).map Prod.fst = some 5 :=
  ram_mirror_read_after_write RomBus.new 5 0 3 (by decide) (by decide)
    (by decide)

/-- Counterexample for C9: the claim asserts that a stub-region read returns
0 after every prior sequence of bus operations.  After writing 5 to RAM
address 0, a read at the PPU register address 0x2000 completes and returns
the stale data bus value 5, not 0. -/
theorem stub_read_stale_value_counterexample :
    ((RomBus.new.mem_write 0 5).bind fun b2 =>
      b2.mem_read 0x2000).map Prod.fst = some 5 ∧ (5 : Nat) ≠ 0 :=
  ⟨by decide, by decide⟩

/-- C9 as amended: a bus read at any stub-region address completes without
error and returns the value currently latched on the data bus, leaving it
unchanged; this is 0 only when nothing has driven the data bus before, such
as on a freshly constructed bus. -/
theorem stub_read_returns_data_bus (b : RomBus) (addr : Nat)
    (h : stub_region addr) :
    (b.mem_read addr).map Prod.fst = some b.data_bus := by
  have hu : addr % 65536 = addr := by
    rcases h with ⟨h1, h2⟩ | ⟨h1, h2⟩ | ⟨h1, h2⟩ | ⟨h1, h2⟩ <;>
      exact Nat.mod_eq_of_lt (by omega)
  rcases h with ⟨h1, h2⟩ | ⟨h1, h2⟩ | ⟨h1, h2⟩ | ⟨h1, h2⟩
  · have c1 : ¬ (addr ≤ 8191) := by omega
    have c2 : addr ≤ 16383 := by omega
    simp [RomBus.mem_read, RomBus.set_control_signal, RomBus.update,
      RomBus.set_address_bus, RomBus.set_data_bus, RomBus.get_control_signal,
      RomBus.get_data_bus, MemEnable, AccessMode, and254_mod_two,
      or_one_mod_two, or_two_mod_two, and_or_two_ne_zero,
      Nat.and_distrib_right, Nat.and_assoc, u8, u16, hu, c1, c2]
  · have c1 : ¬ (addr ≤ 8191) := by omega
    have c2 : ¬ (addr ≤ 16383) := by omega
    have c3 : addr ≤ 16407 := by omega
    simp [RomBus.mem_read, RomBus.set_control_signal, RomBus.update,
      RomBus.set_address_bus, RomBus.set_data_bus, RomBus.get_control_signal,
      RomBus.get_data_bus, MemEnable, AccessMode, and254_mod_two,
      or_one_mod_two, or_two_mod_two, and_or_two_ne_zero,
      Nat.and_distrib_right, Nat.and_assoc, u8, u16, hu, c1, c2, c3]
  · have c1 : ¬ (addr ≤ 8191) := by omega
    have c2 : ¬ (addr ≤ 16383) := by omega
    have c3 : ¬ (addr ≤ 16407) := by omega
    have c4 : addr ≤ 16415 := by omega
    simp [RomBus.mem_read, RomBus.set_control_signal, RomBus.update,
      RomBus.set_address_bus, RomBus.set_data_bus, RomBus.get_control_signal,
      RomBus.get_data_bus, MemEnable, AccessMode, and254_mod_two,
      or_one_mod_two, or_two_mod_two, and_or_two_ne_zero,
      Nat.and_distrib_right, Nat.and_assoc, u8, u16, hu, c1, c2, c3, c4]
  · have c1 : ¬ (addr ≤ 8191) := by omega
    have c2 : ¬ (addr ≤ 16383) := by omega
    have c3 : ¬ (addr ≤ 16407) := by omega
    have c4 : ¬ (addr ≤ 16415) := by omega
    have c5 : ¬ (addr < 24576) := by omega
    have c6 : addr ≤ 32767 := by omega
    simp [RomBus.mem_read, RomBus.set_control_signal, RomBus.update,
      RomBus.set_address_bus, RomBus.set_data_bus, RomBus.get_control_signal,
      RomBus.get_data_bus, MemEnable, AccessMode, and254_mod_two,
      or_one_mod_two, or_two_mod_two, and_or_two_ne_zero,
      Nat.and_distrib_right, Nat.and_assoc, u8, u16, hu, c1, c2, c3, c4, c5,
      c6]

/-- Witness for the amended C9: on a fresh bus a read at 0x2000 returns the
initial data bus value 0. -/
theorem stub_read_returns_data_bus_witness :
    (RomBus.new.mem_read 0x2000).map Prod.fst = some 0 :=
  stub_read_returns_data_bus RomBus.new 0x2000 (by decide)

end RES
